import Mathlib

/-!
Shallow embedding of src/platform.ts, a runtime platform-guard library.
State is passed explicitly: the module-level mutable variables of the
source (simulatedPlatform, the two tag registries) become function
arguments and results, and thrown JavaScript errors become
Except.error carrying the message string.
-/

/-- The target platforms of the source: type TargetPlatformType, line 7. -/
inductive TargetPlatformType where
  | web
  | node
deriving DecidableEq

/-- PlatformType of line 8: a target platform or the sentinel unknown. -/
inductive PlatformType where
  | web
  | node
  | unknown
deriving DecidableEq

/-- Embeds a target platform into PlatformType. -/
def TargetPlatformType.toPlatform : TargetPlatformType → PlatformType
  | .web => .web
  | .node => .node

/-- The string a PlatformType value interpolates to in messages. -/
def PlatformType.str : PlatformType → String
  | .web => "web"
  | .node => "node"
  | .unknown => "unknown"

/-- The string a TargetPlatformType value interpolates to in messages. -/
def TargetPlatformType.str : TargetPlatformType → String
  | .web => "web"
  | .node => "node"

/-- The toggle of line 12; the source fixes it to true. -/
def enabled : Bool := true

/-- The ambient state read by getCurrentPlatform: the simulatedPlatform
variable of line 13 plus the two facts about the host the detector
tests, namely whether a window global exists and whether
global.process.versions.node exists. -/
structure Env where
  simulated : Option PlatformType
  hasWindow : Bool
  hasNodeVersions : Bool
deriving DecidableEq

/-- getCurrentPlatform, lines 21 to 29: the simulated platform when one
is set (every platform string is truthy), else web when a window global
exists, else node when the node version marker exists, else unknown. -/
def getCurrentPlatform (e : Env) : PlatformType :=
  match e.simulated with
  | some p => p
  | none =>
    if e.hasWindow then .web
    else if e.hasNodeVersions then .node
    else .unknown

/-- setCurrentPlatform, lines 31 to 34: stores the override and reports
whether an override is active after the call. -/
def setCurrentPlatform (e : Env) (target : Option PlatformType) : Env × Bool :=
  let e2 : Env := { e with simulated := target }
  (e2, e2.simulated.isSome)

/-- The default message of assertPlatform, line 428. -/
def defaultAssertMsg (target : TargetPlatformType) : String :=
  "This code should only run in a " ++ target.str ++ " environment."

/-- The msg-or-default choice of line 428: JavaScript tests truthiness,
so an absent or empty message falls back to the default. -/
def msgOr : Option String → String → String
  | none, d => d
  | some m, d => if m = "" then d else m

/-- assertPlatform, lines 422 to 431: errors with the supplied or
default message when the current platform differs from the target. -/
def assertPlatform (e : Env) (target : TargetPlatformType) (msg : Option String) :
    Except String Unit :=
  if enabled = true ∧ getCurrentPlatform e ≠ target.toPlatform then
    .error (msgOr msg (defaultAssertMsg target))
  else
    .ok ()

/-- The message template of platformSpecificMethod, line 113, also used
by the class guard at line 312. -/
def methodMsg (name : String) (p : TargetPlatformType) (cur : PlatformType) : String :=
  "Method " ++ name ++ " can only be called in a " ++ p.str ++
    " environment, current platform is " ++ cur.str ++ "."

/-- The message template of the property accessors, lines 252 and 328. -/
def propMsg (name className : String) (p : TargetPlatformType) (cur : PlatformType) : String :=
  "Property " ++ name ++ " of type " ++ className ++
    " can only be accessed in a " ++ p.str ++
    " environment, current environment is " ++ cur.str ++ "."

/-- The shape of a method value: the original callable, or a guard
wrapper (created at line 110 or line 309) around an inner shape,
remembering the platform and the method name captured in its message. -/
inductive MethodImpl where
  | orig
  | wrap (p : TargetPlatformType) (name : String) (inner : MethodImpl)
deriving DecidableEq

/-- A function object: its wrapper shape plus the two symbol marks the
source sets on function objects (crossPlatformSymbol, line 74, and
platformSpecificSymbol, line 120). -/
structure FuncObj where
  impl : MethodImpl
  cross : Bool
  specific : Bool
deriving DecidableEq

/-- crossPlatformMethod, lines 65 to 76: sets the cross-platform symbol
on the current function object. -/
def crossPlatformMethodDec (f : FuncObj) : FuncObj :=
  { f with cross := true }

/-- platformSpecificMethod, lines 85 to 122: when enabled and the value
does not carry the cross-platform mark, replaces the method with a
fresh wrapper carrying the platform-specific mark; a cross-marked
method is left untouched. -/
def platformSpecificMethodDec (p : TargetPlatformType) (name : String) (f : FuncObj) : FuncObj :=
  if enabled = false then f
  else if f.cross then f
  else { impl := .wrap p name f.impl, cross := false, specific := true }

/-- Invocation semantics of a method shape: each wrapper layer runs
assertPlatform with the method message (lines 110 to 118 and 309 to
318) and then defers to the inner shape; the original callable applies
the underlying function. -/
def invokeImpl {α β : Type} (e : Env) (f : α → β) : MethodImpl → α → Except String β
  | .orig, a => .ok (f a)
  | .wrap p name inner, a =>
    match assertPlatform e p (some (methodMsg name p (getCurrentPlatform e))) with
    | .error s => .error s
    | .ok _ => invokeImpl e f inner a

/-- One of the two tag registries of lines 178 to 179: a record mapping
a class name to its set of marked member names, modelled as an
association list holding duplicate-free member lists. -/
abbrev Registry := List (String × List String)

/-- Record lookup by class name. -/
def regFind : Registry → String → Option (List String)
  | [], _ => none
  | entry :: r, cn => if entry.1 = cn then some entry.2 else regFind r cn

/-- Membership of a member name in the set stored for a class name; a
missing record entry means not a member. -/
def regHas (r : Registry) (cn k : String) : Bool :=
  match regFind r cn with
  | none => false
  | some s => s.contains k

/-- The lazy initialisation both registries perform: when the class name
has no entry yet, store a fresh empty set for it. -/
def regInit (r : Registry) (cn : String) : Registry :=
  match regFind r cn with
  | none => r ++ [(cn, [])]
  | some _ => r

/-- Set.add on the entry of a class name: append the member name unless
it is already present; no entry means no change (callers initialise
first). -/
def setInsert : Registry → String → String → Registry
  | [], _, _ => []
  | entry :: r, cn, k =>
    if entry.1 = cn then
      (entry.1, if entry.2.contains k then entry.2 else entry.2 ++ [k]) :: r
    else
      entry :: setInsert r cn k

/-- addToCrossPlatformProperties, lines 181 to 187: ensure the class has
an entry, then add the member name to its set. -/
def addToCrossPlatformProperties (r : Registry) (cn k : String) : Registry :=
  setInsert (regInit r cn) cn k

/-- addToPlatformSpecificProperties, lines 188 to 197: same bookkeeping
on the platform-specific registry. -/
def addToPlatformSpecificProperties (r : Registry) (cn k : String) : Registry :=
  setInsert (regInit r cn) cn k

/-- isInPlatformSpecificProperties, lines 199 to 207: lazily create the
entry for the class, then report set membership; returns the updated
registry alongside the answer because the query mutates. -/
def isInPlatformSpecificProperties (r : Registry) (cn k : String) : Registry × Bool :=
  let r1 := regInit r cn
  (r1, regHas r1 cn k)

/-- isInCrossPlatformProperties, lines 209 to 214: same query on the
cross-platform registry. -/
def isInCrossPlatformProperties (r : Registry) (cn k : String) : Registry × Bool :=
  let r1 := regInit r cn
  (r1, regHas r1 cn k)

/-- The pair of registries: cross-platform first, platform-specific
second. -/
abbrev RegState := Registry × Registry

/-- A JavaScript member value as the class guard distinguishes them:
null or undefined, a function object, a plain value, or a guard-created
accessor pair (whose getter is gated and whose setter is not) storing
the wrapped value together with the platform, member name and class
name captured in its message. -/
inductive MemberVal (V : Type) where
  | vnull
  | vfunc (f : FuncObj)
  | vplain (v : V)
  | vacc (p : TargetPlatformType) (name className : String) (value : MemberVal V)
deriving DecidableEq

/-- An object as a list of own properties: key and value, keys unique. -/
abbrev InstanceObj (V : Type) := List (String × MemberVal V)

/-- Own-property lookup. -/
def lookupOwn {V : Type} : InstanceObj V → String → Option (MemberVal V)
  | [], _ => none
  | entry :: inst, k => if entry.1 = k then some entry.2 else lookupOwn inst k

/-- Property lookup through the prototype chain: own property first,
then the prototype. -/
def lookupRaw {V : Type} (inst proto : InstanceObj V) (k : String) : Option (MemberVal V) :=
  match lookupOwn inst k with
  | some v => some v
  | none => lookupOwn proto k

/-- Property assignment on the instance: replace the own property when
present, otherwise create a new own property. -/
def setOwn {V : Type} : InstanceObj V → String → MemberVal V → InstanceObj V
  | [], k, v => [(k, v)]
  | entry :: inst, k, v =>
    if entry.1 = k then (k, v) :: inst else entry :: setOwn inst k v

/-- The getter installed by the class guard at lines 325 to 332: it runs
assertPlatform with the property message and then yields the stored
value. -/
def classAccessorGet {V : Type} (e : Env) (p : TargetPlatformType) (name className : String)
    (value : MemberVal V) : Except String (MemberVal V) :=
  match assertPlatform e p (some (propMsg name className p (getCurrentPlatform e))) with
  | .error s => .error s
  | .ok _ => .ok value

/-- The setter installed by the class guard at lines 333 to 336: it
stores the new value unconditionally. -/
def classAccessorSet {V : Type} (_value newValue : MemberVal V) : MemberVal V :=
  newValue

/-- The marker message this embedding uses for the JavaScript TypeError
raised at line 300 when a property is read off null or undefined. -/
def typeErrorMsg : String := "TypeError"

/-- The effect of evaluating the expression instance[key] while the
class guard inspects a member: a missing key reads as undefined, an
accessor runs its gated getter (possibly throwing), anything else is
returned as stored. -/
def readOwnOrProto {V : Type} (e : Env) (inst proto : InstanceObj V) (k : String) :
    Except String (MemberVal V) :=
  match lookupRaw inst proto k with
  | none => .ok .vnull
  | some (.vacc p name cn v) => classAccessorGet e p name cn v
  | some m => .ok m

/-- The body of the per-key loop of the construct helper inside
platformSpecificClass, lines 287 to 341: skip keys registered in either
registry (the registry queries short-circuit and lazily initialise),
then read the member (a TypeError surfaces for null or undefined, and a
gated getter may throw), skip function objects already carrying a mark,
wrap an unmarked function in a fresh guard wrapper, and replace any
other value by a gated accessor pair. -/
def processKey {V : Type} (e : Env) (p : TargetPlatformType) (cn : String)
    (proto : InstanceObj V) (rs : RegState) (inst : InstanceObj V) (k : String) :
    Except String (RegState × InstanceObj V) :=
  let c1 := isInCrossPlatformProperties rs.1 cn k
  if c1.2 then
    .ok ((c1.1, rs.2), inst)
  else
    let s1 := isInPlatformSpecificProperties rs.2 cn k
    let rs1 : RegState := (c1.1, s1.1)
    if s1.2 then
      .ok (rs1, inst)
    else
      match readOwnOrProto e inst proto k with
      | .error msg => .error msg
      | .ok .vnull => .error typeErrorMsg
      | .ok (.vfunc f) =>
        if f.cross || f.specific then
          .ok (rs1, inst)
        else
          .ok (rs1, setOwn inst k (.vfunc ⟨.wrap p k f.impl, false, false⟩))
      | .ok m => .ok (rs1, setOwn inst k (.vacc p k cn m))

/-- The loop of the construct helper over the precomputed name list. -/
def constructLoop {V : Type} (e : Env) (p : TargetPlatformType) (cn : String)
    (proto : InstanceObj V) :
    List String → RegState → InstanceObj V → Except String (RegState × InstanceObj V)
  | [], rs, inst => .ok (rs, inst)
  | k :: ks, rs, inst =>
    match processKey e p cn proto rs inst k with
    | .error m => .error m
    | .ok st => constructLoop e p cn proto ks st.1 st.2

/-- The construct helper of platformSpecificClass, lines 276 to 345: the
name list is the concatenation of the own property names of the
instance and the own property names of its prototype, computed once
before the loop mutates the instance. -/
def construct {V : Type} (e : Env) (p : TargetPlatformType) (cn : String) (rs : RegState)
    (inst proto : InstanceObj V) : Except String (RegState × InstanceObj V) :=
  constructLoop e p cn proto (inst.map Prod.fst ++ proto.map Prod.fst) rs inst

/-- The getter installed by platformSpecificProperty at lines 249 to
257: gated by the same platform comparison, with the property message. -/
def platformSpecificPropertyGetFn {V : Type} (e : Env) (p : TargetPlatformType)
    (name className : String) (value : MemberVal V) : Except String (MemberVal V) :=
  if enabled = true ∧ p.toPlatform ≠ getCurrentPlatform e then
    .error (propMsg name className p (getCurrentPlatform e))
  else
    .ok value

/-- The setter installed by platformSpecificProperty at lines 258 to
260: stores the new value unconditionally. -/
def platformSpecificPropertySetFn {V : Type} (_value newValue : MemberVal V) : MemberVal V :=
  newValue

/-- The declaration-time state the property decorators act on: the two
registries plus the prototype object carrying the property. -/
structure DecState (V : Type) where
  cross : Registry
  spec : Registry
  proto : InstanceObj V
deriving DecidableEq

/-- crossPlatformProperty, lines 221 to 225: records the pair in the
cross-platform registry. -/
def crossPlatformPropertyDec {V : Type} (cn k : String) (st : DecState V) : DecState V :=
  { st with cross := addToCrossPlatformProperties st.cross cn k }

/-- platformSpecificProperty, lines 233 to 264: when the pair is already
registered cross-platform the decorator returns without wrapping;
otherwise it records the pair in the platform-specific registry and
replaces the prototype property with the gated accessor pair capturing
the current value. -/
def platformSpecificPropertyDec {V : Type} (p : TargetPlatformType) (cn k : String)
    (st : DecState V) : DecState V :=
  if enabled = false then st
  else
    let value := (lookupOwn st.proto k).getD .vnull
    let c1 := isInCrossPlatformProperties st.cross cn k
    if c1.2 then
      { st with cross := c1.1 }
    else
      { cross := c1.1,
        spec := addToPlatformSpecificProperties st.spec cn k,
        proto := setOwn st.proto k (.vacc p k cn value) }

/-- PlatformSpecificFunctionMap, lines 397 to 399: an optional
zero-argument producer per platform. -/
structure PlatformSpecificFunctionMap (α : Type) where
  web : Option (Unit → α)
  node : Option (Unit → α)
  unknown : Option (Unit → α)

/-- Key lookup map[platform] on the function map. -/
def mapLookup {α : Type} (m : PlatformSpecificFunctionMap α) : PlatformType → Option (Unit → α)
  | .web => m.web
  | .node => m.node
  | .unknown => m.unknown

/-- switchPlatform, lines 407 to 415: invoke the entry of the current
platform, or error with the lookup message when there is none. -/
def switchPlatform {α : Type} (e : Env) (m : PlatformSpecificFunctionMap α) : Except String α :=
  match mapLookup m (getCurrentPlatform e) with
  | none => .error ("No function specified for platform: " ++ (getCurrentPlatform e).str)
  | some fn => .ok (fn ())

/-- The constructor of PlatformSpecificType, lines 437 to 445: it runs
assertPlatform on the target with no custom message. -/
def PlatformSpecificTypeCtor (e : Env) (targetPlatform : TargetPlatformType) :
    Except String Unit :=
  assertPlatform e targetPlatform none

/-- The constructor of NodeJsSpecificType, lines 450 to 454. -/
def NodeJsSpecificTypeCtor (e : Env) : Except String Unit :=
  PlatformSpecificTypeCtor e .node

/-- The constructor of WebSpecificType, lines 459 to 463. -/
def WebSpecificTypeCtor (e : Env) : Except String Unit :=
  PlatformSpecificTypeCtor e .web

/-- The per-name effect of one retrofit pass of the class guard on a
member value, as a function of whether the pair is registered in either
registry: registered names and marked function objects are left alone,
an unmarked function object gains exactly one guard wrapper, and any
other value is replaced by a gated accessor storing it. -/
def transformK {V : Type} (p : TargetPlatformType) (cn k : String) (registered : Bool)
    (v : MemberVal V) : MemberVal V :=
  if registered then v
  else
    match v with
    | .vfunc f =>
      if f.cross || f.specific then .vfunc f
      else .vfunc ⟨.wrap p k f.impl, false, false⟩
    | .vplain x => .vacc p k cn (.vplain x)
    | v => v

/-- Recognises a guard-created accessor value. -/
def isAcc {V : Type} : MemberVal V → Bool
  | .vacc _ _ _ _ => true
  | _ => false

/-- Recognises a lookup result holding a guard-created accessor. -/
def isAccOpt {V : Type} : Option (MemberVal V) → Bool
  | some v => isAcc v
  | none => false

/-! Helper lemmas about the message strings and simple list folds. -/

theorem methodMsg_ne_empty (name : String) (p : TargetPlatformType) (cur : PlatformType) :
    methodMsg name p cur ≠ "" := by
  intro h
  have h2 := congrArg String.length h
  simp only [methodMsg, String.length_append] at h2
  have h3 : ("Method ").length = 7 := rfl
  have h4 : ("" : String).length = 0 := rfl
  omega

theorem propMsg_ne_empty (name cn : String) (p : TargetPlatformType) (cur : PlatformType) :
    propMsg name cn p cur ≠ "" := by
  intro h
  have h2 := congrArg String.length h
  simp only [propMsg, String.length_append] at h2
  have h3 : ("Property ").length = 9 := rfl
  have h4 : ("" : String).length = 0 := rfl
  omega

theorem msgOr_some_of_ne (m d : String) (h : m ≠ "") : msgOr (some m) d = m := by
  simp [msgOr, h]

theorem foldl_store_last {γ : Type} (g : γ → γ → γ) (hg : ∀ x y, g x y = y)
    (ws : List γ) (v0 : γ) : ws.foldl g v0 = ws.getLastD v0 := by
  induction ws generalizing v0 with
  | nil => rfl
  | cons w ws ih => rw [List.foldl_cons, hg, ih, List.getLastD_cons]

/-- C1: a method wrapped by platformSpecificMethod for a declared target
platform T, invoked while platform P is simulated, returns the original
result unchanged when P equals T and otherwise errors with exactly the
Method-template message with the method name, declared platform and
current platform substituted; in particular a method named foo declared
for web, called while node is simulated, fails with the exact example
message. -/
theorem method_guard_gates_by_platform {α β : Type} (T : TargetPlatformType) (P : PlatformType)
    (name : String) (wdw nd : Bool) (f : α → β) (a : α) :
    invokeImpl ⟨some P, wdw, nd⟩ f
        (platformSpecificMethodDec T name ⟨.orig, false, false⟩).impl a
      = (if P = T.toPlatform then .ok (f a) else .error (methodMsg name T P))
    ∧ methodMsg "foo" .web .node
      = "Method foo can only be called in a web environment, current platform is node." := by
  constructor
  · have hslot : (platformSpecificMethodDec T name ⟨.orig, false, false⟩).impl
        = .wrap T name .orig := rfl
    rw [hslot]
    by_cases h : P = T.toPlatform
    · simp [invokeImpl, assertPlatform, getCurrentPlatform, enabled, h]
    · simp [invokeImpl, assertPlatform, getCurrentPlatform, enabled, h,
        msgOr_some_of_ne _ _ (methodMsg_ne_empty name T P)]
  · rfl

/-- C2: getCurrentPlatform returns the simulated platform when one is
set, else web when a window global exists, else node when the node
version marker exists, else unknown; setCurrentPlatform stores the
override and returns true exactly when an override is active after the
call, and clearing the override restores real-environment detection. -/
theorem platform_resolution_order (P : PlatformType) (wdw nd : Bool) (e : Env)
    (t : Option PlatformType) :
    getCurrentPlatform ⟨some P, wdw, nd⟩ = P
    ∧ getCurrentPlatform ⟨none, true, nd⟩ = .web
    ∧ getCurrentPlatform ⟨none, false, true⟩ = .node
    ∧ getCurrentPlatform ⟨none, false, false⟩ = .unknown
    ∧ (setCurrentPlatform e t).1 = { e with simulated := t }
    ∧ ((setCurrentPlatform e t).2 = true ↔ (setCurrentPlatform e t).1.simulated ≠ none)
    ∧ getCurrentPlatform (setCurrentPlatform e none).1
        = (if e.hasWindow then .web else if e.hasNodeVersions then .node else .unknown) := by
  refine ⟨rfl, rfl, rfl, rfl, rfl, ?_, rfl⟩
  cases t <;> simp [setCurrentPlatform]

/-- C3: for a property guarded either by platformSpecificProperty or by
the class-guard retrofit, any sequence of writes is stored unchecked,
and a subsequent read returns the most recently stored value when the
simulated platform equals the declared platform and otherwise errors
with the Property-template message. -/
theorem property_write_ungated_read_gated {V : Type} (P : PlatformType) (T : TargetPlatformType)
    (k cn : String) (v0 : MemberVal V) (ws : List (MemberVal V)) (wdw nd : Bool) :
    platformSpecificPropertyGetFn ⟨some P, wdw, nd⟩ T k cn
        (ws.foldl platformSpecificPropertySetFn v0)
      = (if P = T.toPlatform then .ok (ws.getLastD v0) else .error (propMsg k cn T P))
    ∧ classAccessorGet ⟨some P, wdw, nd⟩ T k cn (ws.foldl classAccessorSet v0)
      = (if P = T.toPlatform then .ok (ws.getLastD v0) else .error (propMsg k cn T P)) := by
  have hf1 : ws.foldl (platformSpecificPropertySetFn (V := V)) v0 = ws.getLastD v0 :=
    foldl_store_last _ (fun _ _ => rfl) ws v0
  have hf2 : ws.foldl (classAccessorSet (V := V)) v0 = ws.getLastD v0 :=
    foldl_store_last _ (fun _ _ => rfl) ws v0
  rw [hf1, hf2]
  constructor
  · by_cases h : P = T.toPlatform
    · simp [platformSpecificPropertyGetFn, getCurrentPlatform, enabled, h]
    · simp [platformSpecificPropertyGetFn, getCurrentPlatform, enabled, h, Ne.symm h]
  · by_cases h : P = T.toPlatform
    · simp [classAccessorGet, assertPlatform, getCurrentPlatform, enabled, h]
    · simp [classAccessorGet, assertPlatform, getCurrentPlatform, enabled, h,
        msgOr_some_of_ne _ _ (propMsg_ne_empty k cn T P)]

/-- C8: constructing PlatformSpecificType, or its fixed subtypes
NodeJsSpecificType and WebSpecificType, asserts the target platform
immediately: construction errors exactly when the current platform
differs from the target, with the default assertion message carrying
the substituted target platform. -/
theorem platform_specific_type_ctor_asserts (e : Env) (t : TargetPlatformType) (wdw nd : Bool) :
    PlatformSpecificTypeCtor e t
      = (if getCurrentPlatform e = t.toPlatform then .ok ()
         else .error ("This code should only run in a " ++ t.str ++ " environment."))
    ∧ NodeJsSpecificTypeCtor e = PlatformSpecificTypeCtor e .node
    ∧ WebSpecificTypeCtor e = PlatformSpecificTypeCtor e .web
    ∧ NodeJsSpecificTypeCtor ⟨some .web, wdw, nd⟩
      = .error "This code should only run in a node environment."
    ∧ WebSpecificTypeCtor ⟨some .node, wdw, nd⟩
      = .error "This code should only run in a web environment." := by
  refine ⟨?_, rfl, rfl, rfl, rfl⟩
  by_cases h : getCurrentPlatform e = t.toPlatform <;>
    simp [PlatformSpecificTypeCtor, assertPlatform, enabled, h, msgOr, defaultAssertMsg]

/-- C9: switchPlatform invokes the map entry for the current platform
and returns its result when one exists, and otherwise errors with
exactly the lookup message naming the current platform; in particular a
map holding only a web entry, consulted while node is simulated, fails
with the exact example message. -/
theorem switch_platform_dispatch {α : Type} (e : Env) (m : PlatformSpecificFunctionMap α) :
    (∀ fn, mapLookup m (getCurrentPlatform e) = some fn → switchPlatform e m = .ok (fn ()))
    ∧ (mapLookup m (getCurrentPlatform e) = none →
        switchPlatform e m
          = .error ("No function specified for platform: " ++ (getCurrentPlatform e).str))
    ∧ (∀ (wdw nd : Bool) (f : Unit → α),
        switchPlatform ⟨some .node, wdw, nd⟩ ⟨some f, none, none⟩
          = .error "No function specified for platform: node") := by
  refine ⟨?_, ?_, ?_⟩
  · intro fn h
    simp [switchPlatform, h]
  · intro h
    simp [switchPlatform, h]
  · intro wdw nd f
    rfl

/-- Witness for C9 at a concrete map and platform. -/
theorem switch_platform_dispatch_witness :
    switchPlatform (α := Nat) ⟨some .web, false, false⟩ ⟨some (fun _ => 5), none, none⟩
      = .ok 5 :=
  (switch_platform_dispatch ⟨some .web, false, false⟩ ⟨some (fun _ => 5), none, none⟩).1
    (fun _ => 5) rfl

/-! Registry lemmas. -/

theorem regFind_append (r l : Registry) (cn : String) :
    regFind (r ++ l) cn
      = match regFind r cn with
        | some s => some s
        | none => regFind l cn := by
  induction r with
  | nil => rfl
  | cons entry r ih =>
    by_cases he : entry.1 = cn <;> simp [regFind, he, ih]

theorem regFind_regInit (r : Registry) (cn : String) :
    regFind (regInit r cn) cn = some ((regFind r cn).getD []) := by
  unfold regInit
  cases hf : regFind r cn with
  | none => simp [regFind_append, hf, regFind]
  | some s => simp [hf]

theorem regInit_of_found (r : Registry) (cn : String) (s : List String)
    (hf : regFind r cn = some s) : regInit r cn = r := by
  unfold regInit
  rw [hf]

theorem regHas_regInit (r : Registry) (cn0 cn k : String) :
    regHas (regInit r cn0) cn k = regHas r cn k := by
  unfold regInit
  cases hf : regFind r cn0 with
  | some s => rfl
  | none =>
    unfold regHas
    rw [regFind_append]
    cases hg : regFind r cn with
    | some s => simp
    | none =>
      by_cases he : cn0 = cn <;> simp [regFind, he]

theorem regFind_setInsert (r : Registry) (cn k : String) :
    regFind (setInsert r cn k) cn
      = (regFind r cn).map (fun s => if s.contains k then s else s ++ [k]) := by
  induction r with
  | nil => rfl
  | cons entry r ih =>
    by_cases he : entry.1 = cn <;> simp [setInsert, regFind, he, ih]

theorem setInsert_of_contains (r : Registry) (cn k : String) :
    ∀ s : List String, regFind r cn = some s → s.contains k = true →
      setInsert r cn k = r := by
  induction r with
  | nil => intro s hf _; simp [regFind] at hf
  | cons entry r ih =>
    intro s hf hc
    obtain ⟨e1, e2⟩ := entry
    by_cases he : e1 = cn
    · simp only [regFind, he, if_pos, if_true] at hf
      have h2 : e2 = s := by
        simpa using hf
      have hc2 : k ∈ e2 := by
        rw [h2]
        simpa using hc
      simp [setInsert, he, hc2, h2]
      exact h2 ▸ hc2
    · simp only [regFind, he, if_neg, if_false] at hf
      simp [setInsert, he, ih s hf hc]

theorem regHas_setInsert_regInit (r : Registry) (cn k : String) :
    regHas (setInsert (regInit r cn) cn k) cn k = true := by
  unfold regHas
  rw [regFind_setInsert, regFind_regInit]
  by_cases hc : k ∈ (regFind r cn).getD [] <;> simp [hc]

/-- C5: querying either registry for an unseen type name does not fail:
it lazily records an empty entry for that type and returns false; and
marking is idempotent, re-marking an already-marked pair leaves the
registry in the state marking it once produced. -/
theorem registry_lazy_and_idempotent (r : Registry) (cn k : String) :
    (regFind r cn = none →
      isInPlatformSpecificProperties r cn k = (r ++ [(cn, [])], false)
      ∧ isInCrossPlatformProperties r cn k = (r ++ [(cn, [])], false)
      ∧ regFind (r ++ [(cn, [])]) cn = some [])
    ∧ addToPlatformSpecificProperties (addToPlatformSpecificProperties r cn k) cn k
        = addToPlatformSpecificProperties r cn k
    ∧ addToCrossPlatformProperties (addToCrossPlatformProperties r cn k) cn k
        = addToCrossPlatformProperties r cn k := by
  have hidem : setInsert (regInit (setInsert (regInit r cn) cn k) cn) cn k
      = setInsert (regInit r cn) cn k := by
    have h1 : regFind (setInsert (regInit r cn) cn k) cn
        = some (if ((regFind r cn).getD []).contains k then (regFind r cn).getD []
                else (regFind r cn).getD [] ++ [k]) := by
      rw [regFind_setInsert, regFind_regInit]
      rfl
    have h2 := regHas_setInsert_regInit r cn k
    unfold regHas at h2
    rw [h1] at h2
    rw [regInit_of_found _ cn _ h1]
    exact setInsert_of_contains _ cn k _ h1 h2
  refine ⟨?_, hidem, hidem⟩
  intro h
  have hinit : regInit r cn = r ++ [(cn, [])] := by
    unfold regInit
    rw [h]
  have hfind : regFind (r ++ [(cn, [])]) cn = some [] := by
    rw [regFind_append, h]
    simp [regFind]
  have hhas : regHas (r ++ [(cn, [])]) cn k = false := by
    unfold regHas
    rw [hfind]
    rfl
  refine ⟨?_, ?_, hfind⟩ <;>
    simp [isInPlatformSpecificProperties, isInCrossPlatformProperties, hinit, hhas]

/-- Witness for C5 at the empty registry. -/
theorem registry_lazy_and_idempotent_witness :
    isInPlatformSpecificProperties [] "C" "m" = ([("C", [])], false)
    ∧ addToPlatformSpecificProperties (addToPlatformSpecificProperties [] "C" "m") "C" "m"
        = addToPlatformSpecificProperties [] "C" "m" := by
  have h := registry_lazy_and_idempotent [] "C" "m"
  exact ⟨(h.1 rfl).1, h.2.1⟩

/-! Lemmas for the cross-platform precedence claim. -/

theorem foldl_specific_preserves_cross (ops : List (TargetPlatformType × String)) :
    ∀ s : FuncObj, s.cross = true →
      ops.foldl (fun s op => platformSpecificMethodDec op.1 op.2 s) s = s := by
  induction ops with
  | nil =>
    intro s _
    rfl
  | cons op ops ih =>
    intro s hs
    have hstep : platformSpecificMethodDec op.1 op.2 s = s := by
      simp [platformSpecificMethodDec, enabled, hs]
    rw [List.foldl_cons, hstep, ih s hs]

/-- C4 (amended): when the cross-platform tag is requested before the
platform-specific tag for a pair, the cross-platform tag wins: a
cross-marked method is never wrapped by any later sequence of
platform-specific method decorations and always invokes the original; a
pair recorded cross-platform is skipped by the platform-specific
property decorator, which leaves the prototype and the
platform-specific registry unchanged; and the class-level guard skips
both a pair registered cross-platform and a member value carrying the
cross-platform mark, leaving the instance unchanged. In the reverse
request order the earlier wrap stays in place, which refutes the claim
as stated. -/
theorem cross_platform_tag_first_wins {V α β : Type}
    (ops : List (TargetPlatformType × String)) (e : Env) (f : α → β) (a : α)
    (p : TargetPlatformType) (cn k : String) (st : DecState V) (rs : RegState)
    (inst proto : InstanceObj V) :
    ((ops.foldl (fun s op => platformSpecificMethodDec op.1 op.2 s)
        (crossPlatformMethodDec ⟨.orig, false, false⟩)).impl = .orig
      ∧ invokeImpl e f (ops.foldl (fun s op => platformSpecificMethodDec op.1 op.2 s)
          (crossPlatformMethodDec ⟨.orig, false, false⟩)).impl a = .ok (f a))
    ∧ ((platformSpecificPropertyDec p cn k (crossPlatformPropertyDec cn k st)).proto
          = (crossPlatformPropertyDec cn k st).proto
      ∧ (platformSpecificPropertyDec p cn k (crossPlatformPropertyDec cn k st)).spec
          = (crossPlatformPropertyDec cn k st).spec)
    ∧ (regHas rs.1 cn k = true →
        processKey e p cn proto rs inst k = .ok ((regInit rs.1 cn, rs.2), inst))
    ∧ (∀ fo : FuncObj, fo.cross = true → regHas rs.1 cn k = false →
        regHas rs.2 cn k = false → lookupRaw inst proto k = some (.vfunc fo) →
        processKey e p cn proto rs inst k
          = .ok ((regInit rs.1 cn, regInit rs.2 cn), inst)) := by
  have hfold : ops.foldl (fun s op => platformSpecificMethodDec op.1 op.2 s)
      (crossPlatformMethodDec ⟨.orig, false, false⟩)
      = crossPlatformMethodDec ⟨.orig, false, false⟩ :=
    foldl_specific_preserves_cross ops _ rfl
  refine ⟨⟨?_, ?_⟩, ⟨?_, ?_⟩, ?_, ?_⟩
  · rw [hfold]
    rfl
  · rw [hfold]
    rfl
  · have hhas : regHas (crossPlatformPropertyDec cn k st).cross cn k = true :=
      regHas_setInsert_regInit st.cross cn k
    simp [platformSpecificPropertyDec, enabled, isInCrossPlatformProperties,
      regHas_regInit, hhas]
  · have hhas : regHas (crossPlatformPropertyDec cn k st).cross cn k = true :=
      regHas_setInsert_regInit st.cross cn k
    simp [platformSpecificPropertyDec, enabled, isInCrossPlatformProperties,
      regHas_regInit, hhas]
  · intro h
    simp [processKey, isInCrossPlatformProperties, regHas_regInit, h]
  · intro fo hc h1 h2 hv
    simp [processKey, isInCrossPlatformProperties, isInPlatformSpecificProperties,
      regHas_regInit, h1, h2, readOwnOrProto, hv, hc]

/-- Counterexample to C4 as stated: requesting the platform-specific tag
first and the cross-platform tag second leaves the method wrapped, and
invoking it under a mismatched simulated platform still fails with the
PlatformMismatch message, so the cross-platform tag does not win in
either order of requests. -/
theorem cross_platform_tag_after_wrap_does_not_unwrap :
    (crossPlatformMethodDec (platformSpecificMethodDec .web "foo" ⟨.orig, false, false⟩)).impl
      = .wrap .web "foo" .orig
    ∧ invokeImpl ⟨some .node, false, false⟩ (fun x : Nat => x)
        (crossPlatformMethodDec
          (platformSpecificMethodDec .web "foo" ⟨.orig, false, false⟩)).impl 0
      = .error
          "Method foo can only be called in a web environment, current platform is node." :=
  ⟨rfl, rfl⟩

/-- Witness for C4 at a concrete registry, member and instance. -/
theorem cross_platform_tag_first_wins_witness :
    processKey (V := Nat) ⟨some .node, false, false⟩ .web "C" []
        ([("C", ["m"])], []) [("m", .vplain 3)] "m"
      = .ok ((regInit [("C", ["m"])] "C", []), [("m", .vplain 3)]) :=
  (cross_platform_tag_first_wins (V := Nat) (α := Nat) (β := Nat) []
    ⟨some .node, false, false⟩ id 0 .web "C" "m" ⟨[], [], []⟩
    ([("C", ["m"])], []) [("m", .vplain 3)] []).2.2.1 rfl

/-! Lemmas about instance objects and the per-key retrofit step. -/

theorem lookupOwn_setOwn_self {V : Type} (inst : InstanceObj V) (k : String) (v : MemberVal V) :
    lookupOwn (setOwn inst k v) k = some v := by
  induction inst with
  | nil => simp [setOwn, lookupOwn]
  | cons entry inst ih =>
    by_cases he : entry.1 = k <;> simp [setOwn, lookupOwn, he, ih]

theorem lookupOwn_setOwn_ne {V : Type} (inst : InstanceObj V) (k j : String) (v : MemberVal V)
    (h : j ≠ k) : lookupOwn (setOwn inst k v) j = lookupOwn inst j := by
  induction inst with
  | nil => simp [setOwn, lookupOwn, Ne.symm h]
  | cons entry inst ih =>
    by_cases he : entry.1 = k
    · simp [setOwn, lookupOwn, he, Ne.symm h]
    · by_cases hj : entry.1 = j <;> simp [setOwn, lookupOwn, he, hj, ih, h]

theorem lookupRaw_setOwn_self {V : Type} (inst proto : InstanceObj V) (k : String)
    (v : MemberVal V) : lookupRaw (setOwn inst k v) proto k = some v := by
  simp [lookupRaw, lookupOwn_setOwn_self]

theorem lookupRaw_setOwn_ne {V : Type} (inst proto : InstanceObj V) (k j : String)
    (v : MemberVal V) (h : j ≠ k) :
    lookupRaw (setOwn inst k v) proto j = lookupRaw inst proto j := by
  simp [lookupRaw, lookupOwn_setOwn_ne _ _ _ _ h]

theorem isInCross_snd (r : Registry) (cn k : String) :
    (isInCrossPlatformProperties r cn k).2 = regHas r cn k := by
  simp [isInCrossPlatformProperties, regHas_regInit]

theorem isInSpec_snd (r : Registry) (cn k : String) :
    (isInPlatformSpecificProperties r cn k).2 = regHas r cn k := by
  simp [isInPlatformSpecificProperties, regHas_regInit]

theorem processKey_skip_cross {V : Type} (e : Env) (p : TargetPlatformType) (cn : String)
    (proto : InstanceObj V) (rs : RegState) (inst : InstanceObj V) (k : String)
    (h : regHas rs.1 cn k = true) :
    processKey e p cn proto rs inst k = .ok ((regInit rs.1 cn, rs.2), inst) := by
  simp [processKey, isInCrossPlatformProperties, regHas_regInit, h]

theorem processKey_skip_specific {V : Type} (e : Env) (p : TargetPlatformType) (cn : String)
    (proto : InstanceObj V) (rs : RegState) (inst : InstanceObj V) (k : String)
    (h1 : regHas rs.1 cn k = false) (h2 : regHas rs.2 cn k = true) :
    processKey e p cn proto rs inst k = .ok ((regInit rs.1 cn, regInit rs.2 cn), inst) := by
  simp [processKey, isInCrossPlatformProperties, isInPlatformSpecificProperties,
    regHas_regInit, h1, h2]

theorem processKey_read_error {V : Type} (e : Env) (p : TargetPlatformType) (cn : String)
    (proto : InstanceObj V) (rs : RegState) (inst : InstanceObj V) (k : String) (msg : String)
    (h1 : regHas rs.1 cn k = false) (h2 : regHas rs.2 cn k = false)
    (hr : readOwnOrProto e inst proto k = .error msg) :
    processKey e p cn proto rs inst k = .error msg := by
  simp [processKey, isInCrossPlatformProperties, isInPlatformSpecificProperties,
    regHas_regInit, h1, h2, hr]

theorem processKey_read_null {V : Type} (e : Env) (p : TargetPlatformType) (cn : String)
    (proto : InstanceObj V) (rs : RegState) (inst : InstanceObj V) (k : String)
    (h1 : regHas rs.1 cn k = false) (h2 : regHas rs.2 cn k = false)
    (hr : readOwnOrProto e inst proto k = .ok .vnull) :
    processKey e p cn proto rs inst k = .error typeErrorMsg := by
  simp [processKey, isInCrossPlatformProperties, isInPlatformSpecificProperties,
    regHas_regInit, h1, h2, hr]

theorem processKey_read_func {V : Type} (e : Env) (p : TargetPlatformType) (cn : String)
    (proto : InstanceObj V) (rs : RegState) (inst : InstanceObj V) (k : String) (f : FuncObj)
    (h1 : regHas rs.1 cn k = false) (h2 : regHas rs.2 cn k = false)
    (hr : readOwnOrProto e inst proto k = .ok (.vfunc f)) :
    processKey e p cn proto rs inst k
      = (if f.cross || f.specific then .ok ((regInit rs.1 cn, regInit rs.2 cn), inst)
         else .ok ((regInit rs.1 cn, regInit rs.2 cn),
             setOwn inst k (.vfunc ⟨.wrap p k f.impl, false, false⟩))) := by
  simp [processKey, isInCrossPlatformProperties, isInPlatformSpecificProperties,
    regHas_regInit, h1, h2, hr]

theorem processKey_read_plain {V : Type} (e : Env) (p : TargetPlatformType) (cn : String)
    (proto : InstanceObj V) (rs : RegState) (inst : InstanceObj V) (k : String) (x : V)
    (h1 : regHas rs.1 cn k = false) (h2 : regHas rs.2 cn k = false)
    (hr : readOwnOrProto e inst proto k = .ok (.vplain x)) :
    processKey e p cn proto rs inst k
      = .ok ((regInit rs.1 cn, regInit rs.2 cn), setOwn inst k (.vacc p k cn (.vplain x))) := by
  simp [processKey, isInCrossPlatformProperties, isInPlatformSpecificProperties,
    regHas_regInit, h1, h2, hr]

theorem processKey_read_acc {V : Type} (e : Env) (p : TargetPlatformType) (cn : String)
    (proto : InstanceObj V) (rs : RegState) (inst : InstanceObj V) (k : String)
    (q : TargetPlatformType) (nm c2 : String) (m : MemberVal V)
    (h1 : regHas rs.1 cn k = false) (h2 : regHas rs.2 cn k = false)
    (hr : readOwnOrProto e inst proto k = .ok (.vacc q nm c2 m)) :
    processKey e p cn proto rs inst k
      = .ok ((regInit rs.1 cn, regInit rs.2 cn),
          setOwn inst k (.vacc p k cn (.vacc q nm c2 m))) := by
  simp [processKey, isInCrossPlatformProperties, isInPlatformSpecificProperties,
    regHas_regInit, h1, h2, hr]

theorem map_transformK_true {V : Type} (p : TargetPlatformType) (cn k : String)
    (o : Option (MemberVal V)) : o.map (transformK p cn k true) = o := by
  cases o <;> simp [transformK]

theorem processKey_ok_spec {V : Type} (e : Env) (p : TargetPlatformType) (cn : String)
    (proto : InstanceObj V) (rs : RegState) (inst : InstanceObj V) (k : String)
    (hgood : regHas rs.1 cn k = false → regHas rs.2 cn k = false →
      (∃ f, lookupRaw inst proto k = some (.vfunc f))
      ∨ (∃ x, lookupRaw inst proto k = some (.vplain x))) :
    ∃ rs1 inst1, processKey e p cn proto rs inst k = .ok (rs1, inst1)
      ∧ lookupRaw inst1 proto k
          = (lookupRaw inst proto k).map
              (transformK p cn k (regHas rs.1 cn k || regHas rs.2 cn k))
      ∧ (∀ j, j ≠ k → lookupRaw inst1 proto j = lookupRaw inst proto j)
      ∧ (∀ c2 k2, regHas rs1.1 c2 k2 = regHas rs.1 c2 k2
          ∧ regHas rs1.2 c2 k2 = regHas rs.2 c2 k2) := by
  by_cases h1 : regHas rs.1 cn k = true
  · refine ⟨(regInit rs.1 cn, rs.2), inst,
      processKey_skip_cross e p cn proto rs inst k h1, ?_, fun j _ => rfl,
      fun c2 k2 => ⟨regHas_regInit _ _ _ _, rfl⟩⟩
    rw [h1, Bool.true_or, map_transformK_true]
  · have h1f : regHas rs.1 cn k = false := by
      simpa using h1
    by_cases h2 : regHas rs.2 cn k = true
    · refine ⟨(regInit rs.1 cn, regInit rs.2 cn), inst,
        processKey_skip_specific e p cn proto rs inst k h1f h2, ?_, fun j _ => rfl,
        fun c2 k2 => ⟨regHas_regInit _ _ _ _, regHas_regInit _ _ _ _⟩⟩
      rw [h2, Bool.or_true, map_transformK_true]
    · have h2f : regHas rs.2 cn k = false := by
        simpa using h2
      rcases hgood h1f h2f with ⟨f, hv⟩ | ⟨x, hv⟩
      · have hr : readOwnOrProto e inst proto k = .ok (.vfunc f) := by
          simp [readOwnOrProto, hv]
        by_cases hm : (f.cross || f.specific) = true
        · refine ⟨(regInit rs.1 cn, regInit rs.2 cn), inst, ?_, ?_, fun j _ => rfl,
            fun c2 k2 => ⟨regHas_regInit _ _ _ _, regHas_regInit _ _ _ _⟩⟩
          · rw [processKey_read_func e p cn proto rs inst k f h1f h2f hr, if_pos hm]
          · simp [hv, transformK, h1f, h2f, hm]
        · have hmf : (f.cross || f.specific) = false := by
            simpa using hm
          refine ⟨(regInit rs.1 cn, regInit rs.2 cn),
            setOwn inst k (.vfunc ⟨.wrap p k f.impl, false, false⟩), ?_, ?_,
            fun j hj => lookupRaw_setOwn_ne inst proto k j _ hj,
            fun c2 k2 => ⟨regHas_regInit _ _ _ _, regHas_regInit _ _ _ _⟩⟩
          · rw [processKey_read_func e p cn proto rs inst k f h1f h2f hr, if_neg hm]
          · rw [lookupRaw_setOwn_self, hv]
            simp [transformK, h1f, h2f, hmf]
      · have hr : readOwnOrProto e inst proto k = .ok (.vplain x) := by
          simp [readOwnOrProto, hv]
        refine ⟨(regInit rs.1 cn, regInit rs.2 cn),
          setOwn inst k (.vacc p k cn (.vplain x)),
          processKey_read_plain e p cn proto rs inst k x h1f h2f hr, ?_,
          fun j hj => lookupRaw_setOwn_ne inst proto k j _ hj,
          fun c2 k2 => ⟨regHas_regInit _ _ _ _, regHas_regInit _ _ _ _⟩⟩
        rw [lookupRaw_setOwn_self, hv]
        simp [transformK, h1f, h2f]

theorem constructLoop_spec {V : Type} (e : Env) (p : TargetPlatformType) (cn : String)
    (proto : InstanceObj V) :
    ∀ (keys : List String) (rs : RegState) (inst : InstanceObj V),
      keys.Nodup →
      (∀ k ∈ keys, regHas rs.1 cn k = false → regHas rs.2 cn k = false →
        (∃ f, lookupRaw inst proto k = some (.vfunc f))
        ∨ (∃ x, lookupRaw inst proto k = some (.vplain x))) →
      ∃ rs2 inst2,
        constructLoop e p cn proto keys rs inst = .ok (rs2, inst2)
        ∧ (∀ k ∈ keys, lookupRaw inst2 proto k
            = (lookupRaw inst proto k).map
                (transformK p cn k (regHas rs.1 cn k || regHas rs.2 cn k)))
        ∧ (∀ j, j ∉ keys → lookupRaw inst2 proto j = lookupRaw inst proto j)
        ∧ (∀ c2 k2, regHas rs2.1 c2 k2 = regHas rs.1 c2 k2
            ∧ regHas rs2.2 c2 k2 = regHas rs.2 c2 k2) := by
  intro keys
  induction keys with
  | nil =>
    intro rs inst _ _
    exact ⟨rs, inst, rfl, by simp, fun j _ => rfl, fun c2 k2 => ⟨rfl, rfl⟩⟩
  | cons k0 ks ih =>
    intro rs inst hnd hgood
    obtain ⟨hk0, hksnd⟩ := List.nodup_cons.mp hnd
    obtain ⟨rs1, inst1, hpk, hk0look, hpres, hregpres⟩ :=
      processKey_ok_spec e p cn proto rs inst k0
        (hgood k0 (List.mem_cons_self k0 ks))
    have htrans : ∀ k ∈ ks, regHas rs1.1 cn k = false → regHas rs1.2 cn k = false →
        (∃ f, lookupRaw inst1 proto k = some (.vfunc f))
        ∨ (∃ x, lookupRaw inst1 proto k = some (.vplain x)) := by
      intro k hk hkc hks
      rw [(hregpres cn k).1] at hkc
      rw [(hregpres cn k).2] at hks
      have hne : k ≠ k0 := fun h => hk0 (h ▸ hk)
      rw [hpres k hne]
      exact hgood k (List.mem_cons_of_mem k0 hk) hkc hks
    obtain ⟨rs2, inst2, heq, hin, hout, hreg⟩ := ih rs1 inst1 hksnd htrans
    refine ⟨rs2, inst2, ?_, ?_, ?_, ?_⟩
    · show constructLoop e p cn proto (k0 :: ks) rs inst = .ok (rs2, inst2)
      unfold constructLoop
      rw [hpk]
      exact heq
    · intro k hk
      rcases List.mem_cons.mp hk with rfl | hk2
      · rw [hout k hk0, hk0look]
      · have hne : k ≠ k0 := fun h => hk0 (h ▸ hk2)
        rw [hin k hk2, hpres k hne, (hregpres cn k).1, (hregpres cn k).2]
    · intro j hj
      have hj0 : j ≠ k0 := fun h => hj (h ▸ List.mem_cons_self k0 ks)
      have hjk : j ∉ ks := fun h => hj (List.mem_cons_of_mem k0 h)
      rw [hout j hjk, hpres j hj0]
    · intro c2 k2
      exact ⟨((hreg c2 k2).1).trans (hregpres c2 k2).1,
        ((hreg c2 k2).2).trans (hregpres c2 k2).2⟩

theorem processKey_preserves {V : Type} (e : Env) (p : TargetPlatformType) (cn : String)
    (proto : InstanceObj V) (rs : RegState) (inst : InstanceObj V) (k : String)
    (rs1 : RegState) (inst1 : InstanceObj V)
    (h : processKey e p cn proto rs inst k = .ok (rs1, inst1)) :
    (∀ c2 k2, regHas rs1.1 c2 k2 = regHas rs.1 c2 k2
      ∧ regHas rs1.2 c2 k2 = regHas rs.2 c2 k2)
    ∧ ∀ j, j ≠ k → lookupRaw inst1 proto j = lookupRaw inst proto j := by
  by_cases h1 : regHas rs.1 cn k = true
  · rw [processKey_skip_cross e p cn proto rs inst k h1] at h
    obtain ⟨rfl, rfl⟩ : (regInit rs.1 cn, rs.2) = rs1 ∧ inst = inst1 := by
      simpa using h
    exact ⟨fun c2 k2 => ⟨regHas_regInit _ _ _ _, rfl⟩, fun j _ => rfl⟩
  · have h1f : regHas rs.1 cn k = false := by
      simpa using h1
    by_cases h2 : regHas rs.2 cn k = true
    · rw [processKey_skip_specific e p cn proto rs inst k h1f h2] at h
      obtain ⟨rfl, rfl⟩ : (regInit rs.1 cn, regInit rs.2 cn) = rs1 ∧ inst = inst1 := by
        simpa using h
      exact ⟨fun c2 k2 => ⟨regHas_regInit _ _ _ _, regHas_regInit _ _ _ _⟩, fun j _ => rfl⟩
    · have h2f : regHas rs.2 cn k = false := by
        simpa using h2
      cases hv : readOwnOrProto e inst proto k with
      | error msg =>
        rw [processKey_read_error e p cn proto rs inst k msg h1f h2f hv] at h
        exact absurd h (by simp)
      | ok m =>
        cases m with
        | vnull =>
          rw [processKey_read_null e p cn proto rs inst k h1f h2f hv] at h
          exact absurd h (by simp)
        | vfunc f =>
          rw [processKey_read_func e p cn proto rs inst k f h1f h2f hv] at h
          by_cases hm : (f.cross || f.specific) = true
          · rw [if_pos hm] at h
            obtain ⟨rfl, rfl⟩ : (regInit rs.1 cn, regInit rs.2 cn) = rs1 ∧ inst = inst1 := by
              simpa using h
            exact ⟨fun c2 k2 => ⟨regHas_regInit _ _ _ _, regHas_regInit _ _ _ _⟩,
              fun j _ => rfl⟩
          · rw [if_neg hm] at h
            obtain ⟨rfl, rfl⟩ : (regInit rs.1 cn, regInit rs.2 cn) = rs1
                ∧ setOwn inst k (.vfunc ⟨.wrap p k f.impl, false, false⟩) = inst1 := by
              simpa using h
            exact ⟨fun c2 k2 => ⟨regHas_regInit _ _ _ _, regHas_regInit _ _ _ _⟩,
              fun j hj => lookupRaw_setOwn_ne inst proto k j _ hj⟩
        | vplain x =>
          rw [processKey_read_plain e p cn proto rs inst k x h1f h2f hv] at h
          obtain ⟨rfl, rfl⟩ : (regInit rs.1 cn, regInit rs.2 cn) = rs1
              ∧ setOwn inst k (.vacc p k cn (.vplain x)) = inst1 := by
            simpa using h
          exact ⟨fun c2 k2 => ⟨regHas_regInit _ _ _ _, regHas_regInit _ _ _ _⟩,
            fun j hj => lookupRaw_setOwn_ne inst proto k j _ hj⟩
        | vacc q nm cc m =>
          rw [processKey_read_acc e p cn proto rs inst k q nm cc m h1f h2f hv] at h
          obtain ⟨rfl, rfl⟩ : (regInit rs.1 cn, regInit rs.2 cn) = rs1
              ∧ setOwn inst k (.vacc p k cn (.vacc q nm cc m)) = inst1 := by
            simpa using h
          exact ⟨fun c2 k2 => ⟨regHas_regInit _ _ _ _, regHas_regInit _ _ _ _⟩,
            fun j hj => lookupRaw_setOwn_ne inst proto k j _ hj⟩

theorem constructLoop_err_of_null {V : Type} (e : Env) (p : TargetPlatformType) (cn : String)
    (proto : InstanceObj V) (k0 : String) :
    ∀ (keys : List String) (rs : RegState) (inst : InstanceObj V),
      k0 ∈ keys → regHas rs.1 cn k0 = false → regHas rs.2 cn k0 = false →
      lookupRaw inst proto k0 = some .vnull →
      ∃ msg, constructLoop e p cn proto keys rs inst = .error msg := by
  intro keys
  induction keys with
  | nil =>
    intro rs inst hk
    exact absurd hk (List.not_mem_nil k0)
  | cons k ks ih =>
    intro rs inst hk hc hs hnull
    by_cases hkk : k = k0
    · subst hkk
      have hr : readOwnOrProto e inst proto k = .ok .vnull := by
        simp [readOwnOrProto, hnull]
      refine ⟨typeErrorMsg, ?_⟩
      unfold constructLoop
      rw [processKey_read_null e p cn proto rs inst k hc hs hr]
    · have hk2 : k0 ∈ ks := by
        rcases List.mem_cons.mp hk with h | h
        · exact absurd h.symm hkk
        · exact h
      cases hp : processKey e p cn proto rs inst k with
      | error msg =>
        refine ⟨msg, ?_⟩
        unfold constructLoop
        rw [hp]
      | ok st =>
        obtain ⟨hreg, hpres⟩ :=
          processKey_preserves e p cn proto rs inst k st.1 st.2 (by rw [hp])
        obtain ⟨msg, hm⟩ := ih st.1 st.2 hk2 (((hreg cn k0).1).trans hc)
          (((hreg cn k0).2).trans hs)
          ((hpres k0 (fun h => hkk h.symm)).trans hnull)
        refine ⟨msg, ?_⟩
        unfold constructLoop
        rw [hp]
        exact hm

theorem constructLoop_typeError {V : Type} (e : Env) (p : TargetPlatformType) (cn : String)
    (proto : InstanceObj V) (k0 : String) :
    ∀ (keys : List String) (rs : RegState) (inst : InstanceObj V),
      k0 ∈ keys → regHas rs.1 cn k0 = false → regHas rs.2 cn k0 = false →
      lookupRaw inst proto k0 = some .vnull → keys.Nodup →
      (∀ k ∈ keys, isAccOpt (lookupRaw inst proto k) = false) →
      constructLoop e p cn proto keys rs inst = .error typeErrorMsg := by
  intro keys
  induction keys with
  | nil =>
    intro rs inst hk
    exact absurd hk (List.not_mem_nil k0)
  | cons k ks ih =>
    intro rs inst hk hc hs hnull hnd hacc
    obtain ⟨hknotin, hksnd⟩ := List.nodup_cons.mp hnd
    have haccks : ∀ m : InstanceObj V,
        (∀ j, j ≠ k → lookupRaw m proto j = lookupRaw inst proto j) →
        ∀ k2 ∈ ks, isAccOpt (lookupRaw m proto k2) = false := by
      intro m hm k2 hk2
      have hne : k2 ≠ k := fun h => hknotin (h ▸ hk2)
      rw [hm k2 hne]
      exact hacc k2 (List.mem_cons_of_mem k hk2)
    by_cases hkk : k = k0
    · subst hkk
      have hr : readOwnOrProto e inst proto k = .ok .vnull := by
        simp [readOwnOrProto, hnull]
      unfold constructLoop
      rw [processKey_read_null e p cn proto rs inst k hc hs hr]
    · have hk2 : k0 ∈ ks := by
        rcases List.mem_cons.mp hk with h | h
        · exact absurd h.symm hkk
        · exact h
      have hnk0 : k0 ≠ k := fun h => hkk h.symm
      by_cases hc1 : regHas rs.1 cn k = true
      · unfold constructLoop
        rw [processKey_skip_cross e p cn proto rs inst k hc1]
        exact ih (regInit rs.1 cn, rs.2) inst hk2
          ((regHas_regInit rs.1 cn cn k0).trans hc) hs hnull hksnd
          (haccks inst (fun j _ => rfl))
      · have hc1f : regHas rs.1 cn k = false := by
          simpa using hc1
        by_cases hc2 : regHas rs.2 cn k = true
        · unfold constructLoop
          rw [processKey_skip_specific e p cn proto rs inst k hc1f hc2]
          exact ih (regInit rs.1 cn, regInit rs.2 cn) inst hk2
            ((regHas_regInit rs.1 cn cn k0).trans hc)
            ((regHas_regInit rs.2 cn cn k0).trans hs) hnull hksnd
            (haccks inst (fun j _ => rfl))
        · have hc2f : regHas rs.2 cn k = false := by
            simpa using hc2
          cases hv : lookupRaw inst proto k with
          | none =>
            have hr : readOwnOrProto e inst proto k = .ok .vnull := by
              simp [readOwnOrProto, hv]
            unfold constructLoop
            rw [processKey_read_null e p cn proto rs inst k hc1f hc2f hr]
          | some m =>
            cases m with
            | vnull =>
              have hr : readOwnOrProto e inst proto k = .ok .vnull := by
                simp [readOwnOrProto, hv]
              unfold constructLoop
              rw [processKey_read_null e p cn proto rs inst k hc1f hc2f hr]
            | vfunc f =>
              have hr : readOwnOrProto e inst proto k = .ok (.vfunc f) := by
                simp [readOwnOrProto, hv]
              by_cases hm : (f.cross || f.specific) = true
              · unfold constructLoop
                rw [processKey_read_func e p cn proto rs inst k f hc1f hc2f hr, if_pos hm]
                exact ih (regInit rs.1 cn, regInit rs.2 cn) inst hk2
                  ((regHas_regInit rs.1 cn cn k0).trans hc)
                  ((regHas_regInit rs.2 cn cn k0).trans hs) hnull hksnd
                  (haccks inst (fun j _ => rfl))
              · unfold constructLoop
                rw [processKey_read_func e p cn proto rs inst k f hc1f hc2f hr, if_neg hm]
                exact ih (regInit rs.1 cn, regInit rs.2 cn)
                  (setOwn inst k (.vfunc ⟨.wrap p k f.impl, false, false⟩)) hk2
                  ((regHas_regInit rs.1 cn cn k0).trans hc)
                  ((regHas_regInit rs.2 cn cn k0).trans hs)
                  ((lookupRaw_setOwn_ne inst proto k k0 _ hnk0).trans hnull) hksnd
                  (haccks _ (fun j hj => lookupRaw_setOwn_ne inst proto k j _ hj))
            | vplain x =>
              have hr : readOwnOrProto e inst proto k = .ok (.vplain x) := by
                simp [readOwnOrProto, hv]
              unfold constructLoop
              rw [processKey_read_plain e p cn proto rs inst k x hc1f hc2f hr]
              exact ih (regInit rs.1 cn, regInit rs.2 cn)
                (setOwn inst k (.vacc p k cn (.vplain x))) hk2
                ((regHas_regInit rs.1 cn cn k0).trans hc)
                ((regHas_regInit rs.2 cn cn k0).trans hs)
                ((lookupRaw_setOwn_ne inst proto k k0 _ hnk0).trans hnull) hksnd
                (haccks _ (fun j hj => lookupRaw_setOwn_ne inst proto k j _ hj))
            | vacc q nm cc m =>
              have hbad := hacc k (List.mem_cons_self k ks)
              rw [hv] at hbad
              simp [isAccOpt, isAcc] at hbad

/-- C7 (amended): on each construction the class guard processes the
concatenation of instance-owned and prototype member names; provided no
name occurs in both lists and every unregistered name reads as a
callable or a plain value, each enumerated name neither registered in
the tag registry nor carrying a guard mark is wrapped exactly once — an
unmarked callable becomes exactly one platform-checking wrapper, bound
to the class platform, around the original, and a plain value becomes
exactly one read-gated accessor bound to the class platform — while
registered names keep their previous value. The code enumerates the
concatenation rather than the union, so a name owned by both the
instance and its prototype is processed twice, which is what forces
the duplicate-free proviso. -/
theorem class_guard_wraps_each_distinct_name_once {V : Type} (e : Env)
    (p : TargetPlatformType) (cn : String) (rs : RegState) (inst proto : InstanceObj V)
    (hnd : (inst.map Prod.fst ++ proto.map Prod.fst).Nodup)
    (hgood : ∀ k ∈ inst.map Prod.fst ++ proto.map Prod.fst,
      regHas rs.1 cn k = false → regHas rs.2 cn k = false →
      (∃ f, lookupRaw inst proto k = some (.vfunc f))
      ∨ (∃ x, lookupRaw inst proto k = some (.vplain x))) :
    ∃ rs2 inst2, construct e p cn rs inst proto = .ok (rs2, inst2)
      ∧ (∀ k ∈ inst.map Prod.fst ++ proto.map Prod.fst,
          regHas rs.1 cn k = false → regHas rs.2 cn k = false →
          (∀ f : FuncObj, lookupRaw inst proto k = some (.vfunc f) →
            f.cross = false → f.specific = false →
            lookupRaw inst2 proto k = some (.vfunc ⟨.wrap p k f.impl, false, false⟩))
          ∧ (∀ x : V, lookupRaw inst proto k = some (.vplain x) →
            lookupRaw inst2 proto k = some (.vacc p k cn (.vplain x))))
      ∧ (∀ k ∈ inst.map Prod.fst ++ proto.map Prod.fst,
          (regHas rs.1 cn k = true ∨ regHas rs.2 cn k = true) →
          lookupRaw inst2 proto k = lookupRaw inst proto k) := by
  obtain ⟨rs2, inst2, heq, hin, hout, hreg⟩ :=
    constructLoop_spec e p cn proto (inst.map Prod.fst ++ proto.map Prod.fst) rs inst
      hnd hgood
  refine ⟨rs2, inst2, heq, ?_, ?_⟩
  · intro k hk hc hs
    have hl := hin k hk
    rw [hc, hs] at hl
    constructor
    · intro f hv hfc hfs
      rw [hl, hv]
      simp [transformK, hfc, hfs]
    · intro x hv
      rw [hl, hv]
      simp [transformK]
  · intro k hk hr
    have hl := hin k hk
    rcases hr with h | h
    · rw [hl, h, Bool.true_or, map_transformK_true]
    · rw [hl, h, Bool.or_true, map_transformK_true]

/-- Counterexample to C7 as stated: the class guard enumerates the
concatenation, not the union, of instance-owned and prototype member
names, so a method name owned by both the instance and its prototype is
processed twice and ends up inside two platform-checking wrappers
rather than exactly one. -/
theorem class_guard_double_wraps_duplicate_name :
    construct (V := Nat) ⟨some .node, false, false⟩ .node "C" ([], [])
        [("m", .vfunc ⟨.orig, false, false⟩)] [("m", .vfunc ⟨.orig, false, false⟩)]
      = .ok (([("C", [])], [("C", [])]),
          [("m", .vfunc ⟨.wrap .node "m" (.wrap .node "m" .orig), false, false⟩)]) := by
  rfl

/-- Witness for C7 at a concrete class with one method and one plain
prototype member. -/
theorem class_guard_wraps_each_distinct_name_once_witness :
    ∃ rs2 inst2,
      construct (V := Nat) ⟨some .web, false, false⟩ .web "C" ([], [])
          [("m", .vfunc ⟨.orig, false, false⟩)] [("q", .vplain 7)] = .ok (rs2, inst2)
      ∧ lookupRaw inst2 [("q", .vplain 7)] "m"
          = some (.vfunc ⟨.wrap .web "m" .orig, false, false⟩)
      ∧ lookupRaw inst2 [("q", .vplain 7)] "q"
          = some (.vacc .web "q" "C" (.vplain 7)) := by
  obtain ⟨rs2, inst2, heq, hin, hskip⟩ :=
    class_guard_wraps_each_distinct_name_once (V := Nat) ⟨some .web, false, false⟩ .web "C"
      ([], []) [("m", .vfunc ⟨.orig, false, false⟩)] [("q", .vplain 7)] (by decide)
      (by
        intro k hk h1 h2
        have hk2 : k = "m" ∨ k = "q" := by
          simpa using hk
        rcases hk2 with rfl | rfl
        · exact Or.inl ⟨⟨.orig, false, false⟩, rfl⟩
        · exact Or.inr ⟨7, rfl⟩)
  refine ⟨rs2, inst2, heq, ?_, ?_⟩
  · exact (hin "m" (by simp) rfl rfl).1 ⟨.orig, false, false⟩ rfl rfl rfl
  · exact (hin "q" (by simp) rfl rfl).2 7 rfl

/-- C6 (amended): provided no enumerated name occurs both as an
instance-owned and a prototype member and every unregistered enumerated
member reads as a callable or a plain value, construction through the
class guard does not throw on any current platform: it returns an
instance, and the PlatformMismatch failure surfaces at first use —
reading a retrofitted plain member, or invoking a retrofitted method,
under a platform differing from the declared one errors with the exact
property or method message. Without the duplicate-free proviso
construction itself can throw, which refutes the claim as stated. -/
theorem class_guard_construction_defers_failure {V α β : Type} (e : Env)
    (p : TargetPlatformType) (cn : String) (rs : RegState) (inst proto : InstanceObj V)
    (hnd : (inst.map Prod.fst ++ proto.map Prod.fst).Nodup)
    (hgood : ∀ k ∈ inst.map Prod.fst ++ proto.map Prod.fst,
      regHas rs.1 cn k = false → regHas rs.2 cn k = false →
      (∃ f, lookupRaw inst proto k = some (.vfunc f))
      ∨ (∃ x, lookupRaw inst proto k = some (.vplain x))) :
    ∃ rs2 inst2, construct e p cn rs inst proto = .ok (rs2, inst2)
      ∧ ∀ (e2 : Env), getCurrentPlatform e2 ≠ p.toPlatform →
          ∀ k ∈ inst.map Prod.fst ++ proto.map Prod.fst,
            regHas rs.1 cn k = false → regHas rs.2 cn k = false →
            (∀ x : V, lookupRaw inst proto k = some (.vplain x) →
              readOwnOrProto e2 inst2 proto k
                = .error (propMsg k cn p (getCurrentPlatform e2)))
            ∧ (∀ f : FuncObj, lookupRaw inst proto k = some (.vfunc f) →
                f.cross = false → f.specific = false →
                lookupRaw inst2 proto k = some (.vfunc ⟨.wrap p k f.impl, false, false⟩)
                ∧ ∀ (g : α → β) (a : α),
                    invokeImpl e2 g (.wrap p k f.impl) a
                      = .error (methodMsg k p (getCurrentPlatform e2))) := by
  obtain ⟨rs2, inst2, heq, hin, hout, hreg⟩ :=
    constructLoop_spec e p cn proto (inst.map Prod.fst ++ proto.map Prod.fst) rs inst
      hnd hgood
  refine ⟨rs2, inst2, heq, ?_⟩
  intro e2 hmis k hk hc hs
  have hl := hin k hk
  rw [hc, hs] at hl
  constructor
  · intro x hv
    rw [hv] at hl
    have hl2 : lookupRaw inst2 proto k = some (.vacc p k cn (.vplain x)) := by
      rw [hl]
      simp [transformK]
    simp [readOwnOrProto, hl2, classAccessorGet, assertPlatform, enabled, hmis,
      msgOr_some_of_ne _ _ (propMsg_ne_empty k cn p (getCurrentPlatform e2))]
  · intro f hv hfc hfs
    rw [hv] at hl
    refine ⟨?_, ?_⟩
    · rw [hl]
      simp [transformK, hfc, hfs]
    · intro g a
      simp [invokeImpl, assertPlatform, enabled, hmis,
        msgOr_some_of_ne _ _ (methodMsg_ne_empty k p (getCurrentPlatform e2))]

/-- Counterexample to C6 as stated: a plain member name owned by both
the instance and its prototype makes construction itself throw the
PlatformMismatch property error on a mismatched platform — the first
pass installs the gated accessor and the second pass reads through it
while checking for guard marks — so the failure does not always wait
for a member access after construction. -/
theorem class_guard_construction_can_throw :
    construct (V := Nat) ⟨some .web, false, false⟩ .node "C" ([], [])
        [("x", .vplain 0)] [("x", .vfunc ⟨.orig, false, false⟩)]
      = .error
          "Property x of type C can only be accessed in a node environment, current environment is web." := by
  rfl

/-- Witness for C6 at a concrete class declared for web, constructed and
then accessed while node is simulated. -/
theorem class_guard_construction_defers_failure_witness :
    ∃ rs2 inst2,
      construct (V := Nat) ⟨some .node, false, false⟩ .web "C" ([], [])
          [("m", .vfunc ⟨.orig, false, false⟩), ("q", .vplain 7)] [] = .ok (rs2, inst2)
      ∧ readOwnOrProto ⟨some .node, false, false⟩ inst2 [] "q"
          = .error
              "Property q of type C can only be accessed in a web environment, current environment is node."
      ∧ invokeImpl ⟨some .node, false, false⟩ (fun x : Nat => x) (.wrap .web "m" .orig) 0
          = .error
              "Method m can only be called in a web environment, current platform is node." := by
  obtain ⟨rs2, inst2, heq, hacc⟩ :=
    class_guard_construction_defers_failure (V := Nat) (α := Nat) (β := Nat)
      ⟨some .node, false, false⟩ .web "C" ([], [])
      [("m", .vfunc ⟨.orig, false, false⟩), ("q", .vplain 7)] [] (by decide)
      (by
        intro k hk h1 h2
        have hk2 : k = "m" ∨ k = "q" := by
          simpa using hk
        rcases hk2 with rfl | rfl
        · exact Or.inl ⟨⟨.orig, false, false⟩, rfl⟩
        · exact Or.inr ⟨7, rfl⟩)
  refine ⟨rs2, inst2, heq, ?_, ?_⟩
  · exact (hacc ⟨some .node, false, false⟩ (by decide) "q" (by simp) rfl rfl).1 7 rfl
  · exact ((hacc ⟨some .node, false, false⟩ (by decide) "m" (by simp) rfl rfl).2
      ⟨.orig, false, false⟩ rfl rfl rfl).2 (fun x : Nat => x) 0

/-- C10: when an enumerated member that is unregistered in both tag
registries reads as null or undefined, class-guard construction always
fails — the already-guarded check reads a symbol property off the
member value before testing callability — and when the enumerated names
are duplicate-free and no member reads as a guard-created accessor the
raised error is exactly the TypeError of that symbol read; such an
instance cannot be obtained from the guarded constructor at all. -/
theorem class_guard_null_member_fails_construction {V : Type} (e : Env)
    (p : TargetPlatformType) (cn : String) (rs : RegState) (inst proto : InstanceObj V)
    (k0 : String) (hk0 : k0 ∈ inst.map Prod.fst ++ proto.map Prod.fst)
    (hc : regHas rs.1 cn k0 = false) (hs : regHas rs.2 cn k0 = false)
    (hnull : lookupRaw inst proto k0 = some .vnull) :
    (∃ msg, construct e p cn rs inst proto = .error msg)
    ∧ ((inst.map Prod.fst ++ proto.map Prod.fst).Nodup →
       (∀ k ∈ inst.map Prod.fst ++ proto.map Prod.fst,
         isAccOpt (lookupRaw inst proto k) = false) →
       construct e p cn rs inst proto = .error typeErrorMsg) :=
  ⟨constructLoop_err_of_null e p cn proto k0 _ rs inst hk0 hc hs hnull,
   fun hnd hacc =>
     constructLoop_typeError e p cn proto k0 _ rs inst hk0 hc hs hnull hnd hacc⟩

/-- Witness for C10 at a concrete instance with a null member. -/
theorem class_guard_null_member_fails_construction_witness :
    (∃ msg, construct (V := Nat) ⟨some .node, false, false⟩ .node "C" ([], [])
        [("z", .vnull)] [] = .error msg)
    ∧ construct (V := Nat) ⟨some .node, false, false⟩ .node "C" ([], [])
        [("z", .vnull)] [] = .error typeErrorMsg := by
  have h := class_guard_null_member_fails_construction (V := Nat)
    ⟨some .node, false, false⟩ .node "C" ([], []) [("z", .vnull)] [] "z"
    (by decide) rfl rfl rfl
  exact ⟨h.1, h.2 (by decide) (by decide)⟩
